import Mathlib

/-!
Shallow embedding of the CHIP-8 interpreter core (`src/main.rs`) and proofs
about its instruction semantics.

Modelling conventions:
* `u8` / `u16` values are `Nat`s; wherever the Rust code explicitly wraps
  (`overflowing_add`, shifts, bit masks) the model wraps with `% 256` or the
  same mask.  Wherever the Rust code uses plain `+=` / `-=` on an unsigned
  integer, the operation is a program error on overflow (debug builds abort);
  the model returns `Except.error Fault.arithmeticOverflow` there.
* Array indexing (`memory[i]`, `stack[i]`, `inputs[i]`) aborts when out of
  bounds; the model returns `Except.error Fault.indexOutOfBounds`.
* The random byte consumed by opcode `Cxkk` is passed in as an oracle
  argument `rnd`.
* I/O (terminal rendering, key capture) is outside the model; `inputs` is the
  key snapshot the core reads.
-/

/-- Machine faults: the ways the Rust interpreter can abort at runtime. -/
inductive Fault where
  | indexOutOfBounds : Fault
  | arithmeticOverflow : Fault
deriving DecidableEq

/-- Pointwise update of a function-represented array: `f[i] = v`. -/
def updf (f : Nat → Nat) (i v : Nat) : Nat → Nat :=
  fun j => if j = i then v else f j

/-- The machine state of `struct Chip8` in `src/main.rs`. -/
structure Chip8 where
  memory : Nat → Nat
  registers : Nat → Nat
  index : Nat
  pc : Nat
  stack : Nat → Nat
  stack_pointer : Nat
  delay_timer : Nat
  sound_timer : Nat
  inputs : Nat → Bool
  display : Nat → Nat → Bool

/-- The 80-byte font table written by `Chip8::new`. -/
def font_set : List Nat :=
  [0xF0, 0x90, 0x90, 0x90, 0xF0,
   0x20, 0x60, 0x20, 0x20, 0x70,
   0xF0, 0x10, 0xF0, 0x80, 0xF0,
   0xF0, 0x10, 0xF0, 0x10, 0xF0,
   0x90, 0x90, 0xF0, 0x10, 0x10,
   0xF0, 0x80, 0xF0, 0x10, 0xF0,
   0xF0, 0x80, 0xF0, 0x90, 0xF0,
   0xF0, 0x10, 0x20, 0x40, 0x40,
   0xF0, 0x90, 0xF0, 0x90, 0xF0,
   0xF0, 0x90, 0xF0, 0x10, 0xF0,
   0xF0, 0x90, 0xF0, 0x90, 0x90,
   0xE0, 0x90, 0xE0, 0x90, 0xE0,
   0xF0, 0x80, 0x80, 0x80, 0xF0,
   0xE0, 0x90, 0x90, 0x90, 0xE0,
   0xF0, 0x80, 0xF0, 0x80, 0xF0,
   0xF0, 0x80, 0xF0, 0x80, 0x80]

/-- `Chip8::new()`: zeroed state, `pc = 0x200`, font copied to `memory[0..80]`. -/
def Chip8.new : Chip8 :=
  { memory := fun i => if i < 80 then font_set.getD i 0 else 0
    registers := fun _ => 0
    index := 0
    pc := 0x200
    stack := fun _ => 0
    stack_pointer := 0
    delay_timer := 0
    sound_timer := 0
    inputs := fun _ => false
    display := fun _ _ => false }

/-- `return_subroutine`: unconditional `stack_pointer -= 1` (u8 underflow aborts
when it is 0), then `pc = stack[stack_pointer]` (index check against 16). -/
def return_subroutine (s : Chip8) : Except Fault Chip8 :=
  if 1 ≤ s.stack_pointer then
    if s.stack_pointer - 1 < 16 then
      Except.ok { s with stack_pointer := s.stack_pointer - 1,
                         pc := s.stack (s.stack_pointer - 1) }
    else Except.error Fault.indexOutOfBounds
  else Except.error Fault.arithmeticOverflow

/-- `call_subroutine`: unconditional `stack_pointer += 1` (u8 overflow aborts at
255), then `stack[stack_pointer] = addr` (index check against 16).  Note: the
source stores the call target, not the program counter, and never writes `pc`. -/
def call_subroutine (s : Chip8) (addr : Nat) : Except Fault Chip8 :=
  if s.stack_pointer + 1 < 256 then
    if s.stack_pointer + 1 < 16 then
      Except.ok { s with stack_pointer := s.stack_pointer + 1,
                         stack := updf s.stack (s.stack_pointer + 1) addr }
    else Except.error Fault.indexOutOfBounds
  else Except.error Fault.arithmeticOverflow

/-- `skip_if_condition`: `pc += 2` when the condition holds (u16 add aborts on
overflow past 65535). -/
def skip_if_condition (s : Chip8) (con : Bool) : Except Fault Chip8 :=
  if con then
    if s.pc + 2 < 65536 then Except.ok { s with pc := s.pc + 2 }
    else Except.error Fault.arithmeticOverflow
  else Except.ok s

/-- `add_registers` (8xy4): `overflowing_add`, so the sum wraps and VF records
the carry; the VF write happens after the sum write. -/
def add_registers (s : Chip8) (x y : Nat) : Except Fault Chip8 :=
  let sum := (s.registers x + s.registers y) % 256
  let carry := 256 ≤ s.registers x + s.registers y
  let s1 := { s with registers := updf s.registers x sum }
  Except.ok { s1 with registers := updf s1.registers 15 (if carry then 1 else 0) }

/-- `sub_registers` (8xy5): VF is written first from the comparison of the
original values, then `registers[x] -= registers[y]` re-reads both registers
(after the VF write) and aborts on u8 underflow. -/
def sub_registers (s : Chip8) (x y : Nat) : Except Fault Chip8 :=
  let flag := if s.registers y ≤ s.registers x then 1 else 0
  let s1 := { s with registers := updf s.registers 15 flag }
  if s1.registers y ≤ s1.registers x then
    Except.ok { s1 with registers := updf s1.registers x (s1.registers x - s1.registers y) }
  else Except.error Fault.arithmeticOverflow

/-- `shift_right` (8xy6): VF takes the low bit, then `registers[x] >>= 1`. -/
def shift_right (s : Chip8) (x : Nat) : Except Fault Chip8 :=
  let s1 := { s with registers := updf s.registers 15 (s.registers x &&& 0x1) }
  Except.ok { s1 with registers := updf s1.registers x (s1.registers x >>> 1) }

/-- `sub_registers_n` (8xy7): VF is written first, then
`registers[x] = registers[y] - registers[x]` (u8 underflow aborts). -/
def sub_registers_n (s : Chip8) (x y : Nat) : Except Fault Chip8 :=
  let flag := if s.registers x ≤ s.registers y then 1 else 0
  let s1 := { s with registers := updf s.registers 15 flag }
  if s1.registers x ≤ s1.registers y then
    Except.ok { s1 with registers := updf s1.registers x (s1.registers y - s1.registers x) }
  else Except.error Fault.arithmeticOverflow

/-- `shift_left` (8xyE): VF takes the high bit, then `registers[x] <<= 1`
(u8 shift truncates, it does not abort). -/
def shift_left (s : Chip8) (x : Nat) : Except Fault Chip8 :=
  let s1 := { s with registers := updf s.registers 15 ((s.registers x &&& 0x80) >>> 7) }
  Except.ok { s1 with registers := updf s1.registers x ((s1.registers x <<< 1) % 256) }

/-- Display plus the local `carry` flag threaded through `draw_sprite`. -/
structure DrawState where
  display : Nat → Nat → Bool
  carry : Bool

/-- One iteration of the inner pixel loop of `draw_sprite`
(`for x_offset in 0..8`). -/
def drawPix (src y0 x0 yoff xoff : Nat) (st : DrawState) : DrawState :=
  if (src &&& (0x80 >>> xoff)) != 0 then
    { display := fun r c =>
        if r = (y0 + yoff) % 32 ∧ c = (x0 + xoff) % 64 then
          !st.display ((y0 + yoff) % 32) ((x0 + xoff) % 64)
        else st.display r c,
      carry := if !st.carry && st.display ((y0 + yoff) % 32) ((x0 + xoff) % 64)
               then true else st.carry }
  else st

/-- The inner pixel loop of `draw_sprite`, `fuel` iterations starting at
`xoff`; called with `xoff = 0`, `fuel = 8`. -/
def drawRow (src y0 x0 yoff : Nat) : Nat → Nat → DrawState → DrawState
  | _, 0, st => st
  | xoff, fuel + 1, st => drawRow src y0 x0 yoff (xoff + 1) fuel (drawPix src y0 x0 yoff xoff st)

/-- The outer row loop of `draw_sprite` (`for y_offset in 0..n`): each row reads
`memory[index + y_offset]` (aborting when out of bounds) and runs the pixel
loop. -/
def drawRows (mem : Nat → Nat) (idx y0 x0 : Nat) :
    Nat → Nat → DrawState → Except Fault DrawState
  | _, 0, st => Except.ok st
  | yoff, fuel + 1, st =>
    if idx + yoff < 4096 then
      drawRows mem idx y0 x0 (yoff + 1) fuel (drawRow (mem (idx + yoff)) y0 x0 yoff 0 8 st)
    else Except.error Fault.indexOutOfBounds

/-- `draw_sprite` (Dxyn): XOR-blit `n` sprite rows read from `memory[index..]`
at column `registers[x_reg]`, row `registers[y_reg]`, both axes wrapping;
VF reports whether any true cell was turned false. -/
def draw_sprite (s : Chip8) (x_reg y_reg n : Nat) : Except Fault Chip8 :=
  let x_coord := s.registers x_reg
  let y_coord := s.registers y_reg
  match drawRows s.memory s.index y_coord x_coord 0 n { display := s.display, carry := false } with
  | Except.ok st =>
    Except.ok { s with display := st.display,
                       registers := updf s.registers 15 (if st.carry then 1 else 0) }
  | Except.error f => Except.error f

/-- The ascending key scan of `wait_for_input` (`for index in 0..NUM_KEYS` with
`break` on the first held key); called with `k = 0`, `fuel = 16`. -/
def scan_keys (inputs : Nat → Bool) : Nat → Nat → Option Nat
  | _, 0 => none
  | k, fuel + 1 => if inputs k then some k else scan_keys inputs (k + 1) fuel

/-- `wait_for_input` (Fx0A): write the lowest held key into `registers[x]`, or
roll `pc` back by 2 when no key is held (u16 underflow aborts when `pc < 2`). -/
def wait_for_input (s : Chip8) (x : Nat) : Except Fault Chip8 :=
  match scan_keys s.inputs 0 16 with
  | some k => Except.ok { s with registers := updf s.registers x k }
  | none =>
    if 2 ≤ s.pc then Except.ok { s with pc := s.pc - 2 }
    else Except.error Fault.arithmeticOverflow

/-- `load_font` (Fx29): `index = registers[x] * 5`. -/
def load_font (s : Chip8) (x : Nat) : Except Fault Chip8 :=
  Except.ok { s with index := s.registers x * 5 }

/-- `store_binary_coded_decimal` (Fx33): write the decimal digits of
`registers[x]` to `memory[index]`, `memory[index+1]`, `memory[index+2]`,
each write bounds-checked in turn. -/
def store_binary_coded_decimal (s : Chip8) (x : Nat) : Except Fault Chip8 :=
  let val := s.registers x
  if s.index < 4096 then
    if s.index + 1 < 4096 then
      if s.index + 2 < 4096 then
        let m1 := updf s.memory s.index (val / 100)
        let m2 := updf m1 (s.index + 1) ((val % 100) / 10)
        let m3 := updf m2 (s.index + 2) (val % 10)
        Except.ok { s with memory := m3 }
      else Except.error Fault.indexOutOfBounds
    else Except.error Fault.indexOutOfBounds
  else Except.error Fault.indexOutOfBounds

/-- The loop of `store_many_registers` (`for reg_index in 0..x`), writing
`memory[index + reg_index] = registers[reg_index]` with bounds checks. -/
def store_regs (regs : Nat → Nat) (idx : Nat) :
    Nat → Nat → (Nat → Nat) → Except Fault (Nat → Nat)
  | _, 0, mem => Except.ok mem
  | reg_index, fuel + 1, mem =>
    if idx + reg_index < 4096 then
      store_regs regs idx (reg_index + 1) fuel (updf mem (idx + reg_index) (regs reg_index))
    else Except.error Fault.indexOutOfBounds

/-- `store_many_registers` (Fx55): store `V0..V(x-1)` into `memory[index..]`. -/
def store_many_registers (s : Chip8) (x : Nat) : Except Fault Chip8 :=
  match store_regs s.registers s.index 0 x s.memory with
  | Except.ok mem => Except.ok { s with memory := mem }
  | Except.error f => Except.error f

/-- The loop of `load_many_registers` (`for reg_index in 0..x`), reading
`registers[reg_index] = memory[index + reg_index]` with bounds checks. -/
def load_regs (mem : Nat → Nat) (idx : Nat) :
    Nat → Nat → (Nat → Nat) → Except Fault (Nat → Nat)
  | _, 0, regs => Except.ok regs
  | reg_index, fuel + 1, regs =>
    if idx + reg_index < 4096 then
      load_regs mem idx (reg_index + 1) fuel (updf regs reg_index (mem (idx + reg_index)))
    else Except.error Fault.indexOutOfBounds

/-- `load_many_registers` (Fx65): load `V0..V(x-1)` from `memory[index..]`. -/
def load_many_registers (s : Chip8) (x : Nat) : Except Fault Chip8 :=
  match load_regs s.memory s.index 0 x s.registers with
  | Except.ok regs => Except.ok { s with registers := regs }
  | Except.error f => Except.error f

/-- `Chip8::execute`: field extraction and dispatch on the high nibble, exactly
the match of `src/main.rs` lines 89-145.  `rnd` is the random byte drawn by
opcode `Cxkk`. -/
def execute (s : Chip8) (opcode : Nat) (rnd : Nat) : Except Fault Chip8 :=
  if opcode &&& 0xF000 = 0x0000 then
    if opcode = 0x00E0 then Except.ok { s with display := fun _ _ => false }
    else if opcode = 0x00EE then return_subroutine s
    else Except.ok s
  else if opcode &&& 0xF000 = 0x1000 then Except.ok { s with pc := opcode &&& 0x0FFF }
  else if opcode &&& 0xF000 = 0x2000 then call_subroutine s (opcode &&& 0x0FFF)
  else if opcode &&& 0xF000 = 0x3000 then
    skip_if_condition s (s.registers ((opcode &&& 0x0F00) >>> 8) == opcode &&& 0x00FF)
  else if opcode &&& 0xF000 = 0x4000 then
    skip_if_condition s (s.registers ((opcode &&& 0x0F00) >>> 8) != opcode &&& 0x00FF)
  else if opcode &&& 0xF000 = 0x5000 then
    skip_if_condition s (s.registers ((opcode &&& 0x0F00) >>> 8) == s.registers ((opcode &&& 0x00F0) >>> 4))
  else if opcode &&& 0xF000 = 0x6000 then
    Except.ok { s with registers := updf s.registers ((opcode &&& 0x0F00) >>> 8) (opcode &&& 0x00FF) }
  else if opcode &&& 0xF000 = 0x7000 then
    if s.registers ((opcode &&& 0x0F00) >>> 8) + (opcode &&& 0x00FF) < 256 then
      Except.ok { s with registers := updf s.registers ((opcode &&& 0x0F00) >>> 8) (s.registers ((opcode &&& 0x0F00) >>> 8) + (opcode &&& 0x00FF)) }
    else Except.error Fault.arithmeticOverflow
  else if opcode &&& 0xF000 = 0x8000 then
    if opcode &&& 0x000F = 0x0 then
      Except.ok { s with registers := updf s.registers ((opcode &&& 0x0F00) >>> 8) (s.registers ((opcode &&& 0x00F0) >>> 4)) }
    else if opcode &&& 0x000F = 0x1 then
      Except.ok { s with registers := updf s.registers ((opcode &&& 0x0F00) >>> 8) (s.registers ((opcode &&& 0x0F00) >>> 8) ||| s.registers ((opcode &&& 0x00F0) >>> 4)) }
    else if opcode &&& 0x000F = 0x2 then
      Except.ok { s with registers := updf s.registers ((opcode &&& 0x0F00) >>> 8) (s.registers ((opcode &&& 0x0F00) >>> 8) &&& s.registers ((opcode &&& 0x00F0) >>> 4)) }
    else if opcode &&& 0x000F = 0x3 then
      Except.ok { s with registers := updf s.registers ((opcode &&& 0x0F00) >>> 8) (s.registers ((opcode &&& 0x0F00) >>> 8) ^^^ s.registers ((opcode &&& 0x00F0) >>> 4)) }
    else if opcode &&& 0x000F = 0x4 then
      add_registers s ((opcode &&& 0x0F00) >>> 8) ((opcode &&& 0x00F0) >>> 4)
    else if opcode &&& 0x000F = 0x5 then
      sub_registers s ((opcode &&& 0x0F00) >>> 8) ((opcode &&& 0x00F0) >>> 4)
    else if opcode &&& 0x000F = 0x6 then shift_right s ((opcode &&& 0x0F00) >>> 8)
    else if opcode &&& 0x000F = 0x7 then
      sub_registers_n s ((opcode &&& 0x0F00) >>> 8) ((opcode &&& 0x00F0) >>> 4)
    else if opcode &&& 0x000F = 0xE then shift_left s ((opcode &&& 0x0F00) >>> 8)
    else Except.ok s
  else if opcode &&& 0xF000 = 0x9000 then
    skip_if_condition s (s.registers ((opcode &&& 0x0F00) >>> 8) != s.registers ((opcode &&& 0x00F0) >>> 4))
  else if opcode &&& 0xF000 = 0xA000 then Except.ok { s with index := opcode &&& 0x0FFF }
  else if opcode &&& 0xF000 = 0xB000 then
    Except.ok { s with pc := ((opcode &&& 0x0FFF) + s.registers 0) &&& 0x3FFF }
  else if opcode &&& 0xF000 = 0xC000 then
    Except.ok { s with registers := updf s.registers ((opcode &&& 0x0F00) >>> 8) (rnd &&& (opcode &&& 0x00FF)) }
  else if opcode &&& 0xF000 = 0xD000 then
    draw_sprite s ((opcode &&& 0x0F00) >>> 8) ((opcode &&& 0x00F0) >>> 4) (opcode &&& 0x000F)
  else if opcode &&& 0xF000 = 0xE000 then
    if opcode &&& 0x00FF = 0x9E then
      if s.registers ((opcode &&& 0x0F00) >>> 8) < 16 then
        skip_if_condition s (s.inputs (s.registers ((opcode &&& 0x0F00) >>> 8)))
      else Except.error Fault.indexOutOfBounds
    else if opcode &&& 0x00FF = 0xA1 then
      if s.registers ((opcode &&& 0x0F00) >>> 8) < 16 then
        skip_if_condition s (!s.inputs (s.registers ((opcode &&& 0x0F00) >>> 8)))
      else Except.error Fault.indexOutOfBounds
    else Except.ok s
  else if opcode &&& 0xF000 = 0xF000 then
    if opcode &&& 0x00FF = 0x07 then
      Except.ok { s with registers := updf s.registers ((opcode &&& 0x0F00) >>> 8) s.delay_timer }
    else if opcode &&& 0x00FF = 0x0A then wait_for_input s ((opcode &&& 0x0F00) >>> 8)
    else if opcode &&& 0x00FF = 0x15 then
      Except.ok { s with delay_timer := s.registers ((opcode &&& 0x0F00) >>> 8) }
    else if opcode &&& 0x00FF = 0x18 then
      Except.ok { s with sound_timer := s.registers ((opcode &&& 0x0F00) >>> 8) }
    else if opcode &&& 0x00FF = 0x1E then
      if s.index + s.registers ((opcode &&& 0x0F00) >>> 8) < 65536 then
        Except.ok { s with index := s.index + s.registers ((opcode &&& 0x0F00) >>> 8) }
      else Except.error Fault.arithmeticOverflow
    else if opcode &&& 0x00FF = 0x29 then load_font s ((opcode &&& 0x0F00) >>> 8)
    else if opcode &&& 0x00FF = 0x33 then store_binary_coded_decimal s ((opcode &&& 0x0F00) >>> 8)
    else if opcode &&& 0x00FF = 0x55 then store_many_registers s ((opcode &&& 0x0F00) >>> 8)
    else if opcode &&& 0x00FF = 0x65 then load_many_registers s ((opcode &&& 0x0F00) >>> 8)
    else Except.ok s
  else Except.ok s

/-- The big-endian opcode fetch of `Chip8::emulate`:
`(memory[pc] << 8) | memory[pc + 1]`. -/
def fetched (s : Chip8) : Nat :=
  (s.memory s.pc) <<< 8 ||| s.memory (s.pc + 1)

/-- `Chip8::emulate`: fetch (bounds-checked reads at `pc`, `pc + 1`), advance
`pc` by 2, execute, then decrement each nonzero timer once. -/
def emulate (s : Chip8) (rnd : Nat) : Except Fault Chip8 :=
  if s.pc + 1 < 4096 then
    if s.pc + 2 < 65536 then
      match execute { s with pc := s.pc + 2 } (fetched s) rnd with
      | Except.ok t =>
        Except.ok { t with
          delay_timer := if t.delay_timer > 0 then t.delay_timer - 1 else t.delay_timer,
          sound_timer := if t.sound_timer > 0 then t.sound_timer - 1 else t.sound_timer }
      | Except.error f => Except.error f
    else Except.error Fault.arithmeticOverflow
  else Except.error Fault.indexOutOfBounds

/-- Run one `execute` step, keeping the old state on a fault (used only to name
concrete states in closed theorems). -/
def stepO (s : Chip8) (opcode : Nat) : Chip8 :=
  match execute s opcode 0 with
  | Except.ok t => t
  | Except.error _ => s

/-- Fresh machine whose `pc` has already been fetch-advanced past a `CALL` at
`0x200`. -/
def c1_s0 : Chip8 := { Chip8.new with pc := 0x202 }

/-- `c1_s0` after executing `CALL 0x300` (opcode `2300`). -/
def c1_s1 : Chip8 := stepO c1_s0 0x2300

/-- `c1_s1` after executing `RET` (opcode `00EE`). -/
def c1_s2 : Chip8 := stepO c1_s1 0x00EE

/-- Fresh machine with `V0 = 255`. -/
def c2_s0 : Chip8 := { Chip8.new with registers := updf Chip8.new.registers 0 255 }

/-- Fresh machine with `V1 = 1` (and `V0 = 0`). -/
def c2_s1 : Chip8 := { Chip8.new with registers := updf Chip8.new.registers 1 1 }

/-- Fresh machine with `stack_pointer = 15` (fifteen calls deep). -/
def c3_s15 : Chip8 := { Chip8.new with stack_pointer := 15 }

/-- Fresh machine with `VF = 5` and `V1 = 1`. -/
def c5_s : Chip8 := { Chip8.new with registers := updf (updf Chip8.new.registers 15 5) 1 1 }

/-- `c5_s` after executing `SUB VF, V1` (opcode `8F15`, so `x = 0xF`). -/
def c5_t : Chip8 := stepO c5_s 0x8F15

/-- Fresh machine with `V3 = 155` (and `index = 0`, pointing at the font). -/
def c7_s : Chip8 := { Chip8.new with registers := updf Chip8.new.registers 3 155 }

/-- `c7_s` after executing `LD B, V3` (opcode `F333`). -/
def c7_t : Chip8 := stepO c7_s 0xF333

/-- `c7_s` with the index moved past the font area, for the amended claim. -/
def c7_s80 : Chip8 := { c7_s with index := 80 }

/-- `c7_s80` after executing `LD B, V3` (opcode `F333`). -/
def c7_t80 : Chip8 := stepO c7_s80 0xF333

/-- Machine with a one-byte sprite `0x80` at `memory[100]`, `index = 100`, and
the single display cell (0, 0) already lit. -/
def c9_s : Chip8 :=
  { Chip8.new with index := 100,
                   memory := updf Chip8.new.memory 100 0x80,
                   display := fun r c => r == 0 && c == 0 }

/-- `c9_s` after one `DRW V0, V1, 1` (opcode `D011`). -/
def c9_t : Chip8 := stepO c9_s 0xD011

/-- `c9_t` after a second identical `DRW V0, V1, 1`. -/
def c9_u : Chip8 := stepO c9_t 0xD011

/-- Fresh machine with `index = 4000` and `V0 = 200`. -/
def c10_s0 : Chip8 :=
  { Chip8.new with index := 4000, registers := updf Chip8.new.registers 0 200 }

/-- `c10_s0` after `ADD I, V0` (opcode `F01E`): `index` grows to 4200. -/
def c10_s1 : Chip8 := stepO c10_s0 0xF01E

/-- Fresh machine whose ROM is the single instruction `F30A` (wait for key)
at `0x200`. -/
def c6_s : Chip8 :=
  { Chip8.new with memory := updf (updf Chip8.new.memory 0x200 0xF3) 0x201 0x0A }

/-- What one `emulate` cycle does when the fetched instruction is `Fx0A`
(wait for key): the cycle succeeds, both timers decrement once (saturating at
zero), and either no key is held — `pc` ends back at its pre-fetch value and
register `x` is untouched — or the lowest held key's number lands in register
`x` and `pc` keeps its fetch-advanced value.  `x` abbreviates bits 8-11 of the
fetched opcode. -/
def WaitCycleSpec (s : Chip8) (rnd : Nat) : Prop :=
  ∃ t, emulate s rnd = Except.ok t ∧
    t.delay_timer = s.delay_timer - 1 ∧
    t.sound_timer = s.sound_timer - 1 ∧
    ((∀ k, k < 16 → s.inputs k = false) →
      t.pc = s.pc ∧
      t.registers ((fetched s &&& 0x0F00) >>> 8) = s.registers ((fetched s &&& 0x0F00) >>> 8)) ∧
    (∀ k, k < 16 → s.inputs k = true → (∀ j, j < k → s.inputs j = false) →
      t.pc = s.pc + 2 ∧ t.registers ((fetched s &&& 0x0F00) >>> 8) = k)

/-- A set sprite bit of row byte `src` (bits scanned most-significant first,
`j` in `xoff ≤ j < xoff + fuel`) lands on display cell `(r, c)`:
`r = (y0 + yoff) % 32` and `c = (x0 + j) % 64`. -/
def rowHit (src y0 x0 yoff xoff fuel r c : Nat) : Prop :=
  ∃ j, xoff ≤ j ∧ j < xoff + fuel ∧ src &&& (0x80 >>> j) ≠ 0 ∧
    r = (y0 + yoff) % 32 ∧ c = (x0 + j) % 64

/-- A set sprite bit of row byte `src` (`j` in `xoff ≤ j < xoff + fuel`) lands
on a cell of `d` that is already lit. -/
def rowCollide (src y0 x0 yoff xoff fuel : Nat) (d : Nat → Nat → Bool) : Prop :=
  ∃ j, xoff ≤ j ∧ j < xoff + fuel ∧ src &&& (0x80 >>> j) ≠ 0 ∧
    d ((y0 + yoff) % 32) ((x0 + j) % 64) = true

/-- A set bit of the sprite rows `yoff ≤ i < yoff + fuel` read from
`mem[idx + i]` lands on display cell `(r, c)`, both axes wrapping. -/
def spriteHit (mem : Nat → Nat) (idx y0 x0 yoff fuel r c : Nat) : Prop :=
  ∃ i, yoff ≤ i ∧ i < yoff + fuel ∧ ∃ j, j < 8 ∧ mem (idx + i) &&& (0x80 >>> j) ≠ 0 ∧
    r = (y0 + i) % 32 ∧ c = (x0 + j) % 64

/-- A set bit of the sprite rows `yoff ≤ i < yoff + fuel` lands on an
already-lit cell of `d`. -/
def spriteCollide (mem : Nat → Nat) (idx y0 x0 yoff fuel : Nat) (d : Nat → Nat → Bool) : Prop :=
  ∃ i, yoff ≤ i ∧ i < yoff + fuel ∧ ∃ j, j < 8 ∧ mem (idx + i) &&& (0x80 >>> j) ≠ 0 ∧
    d ((y0 + i) % 32) ((x0 + j) % 64) = true

/-- What executing a `Dxyn` opcode does (claim C4): it succeeds, every display
cell covered by a set sprite bit is toggled, every other cell is untouched,
and `VF` ends `1` exactly when some set sprite bit covered an already-lit
cell (else `0`). -/
def DxynSpec (s : Chip8) (opcode rnd : Nat) : Prop :=
  ∃ t, execute s opcode rnd = Except.ok t ∧
    (∀ r c, spriteHit s.memory s.index (s.registers ((opcode &&& 0x00F0) >>> 4))
        (s.registers ((opcode &&& 0x0F00) >>> 8)) 0 (opcode &&& 0x000F) r c →
      t.display r c = !(s.display r c)) ∧
    (∀ r c, ¬ spriteHit s.memory s.index (s.registers ((opcode &&& 0x00F0) >>> 4))
        (s.registers ((opcode &&& 0x0F00) >>> 8)) 0 (opcode &&& 0x000F) r c →
      t.display r c = s.display r c) ∧
    (t.registers 15 = 1 ↔ spriteCollide s.memory s.index
      (s.registers ((opcode &&& 0x00F0) >>> 4)) (s.registers ((opcode &&& 0x0F00) >>> 8))
      0 (opcode &&& 0x000F) s.display) ∧
    (t.registers 15 = 0 ∨ t.registers 15 = 1)

/-- What drawing the same sprite twice in a row does (claim C9): both draws
succeed, the display returns to its pre-draw state, and the second draw's `VF`
is `1` exactly when some set sprite bit covers a cell that was dark before the
first draw (made lit by it). -/
def DoubleDrawSpec (s : Chip8) (xr yr n : Nat) : Prop :=
  ∃ t u, draw_sprite s xr yr n = Except.ok t ∧ draw_sprite t xr yr n = Except.ok u ∧
    (∀ r c, u.display r c = s.display r c) ∧
    (u.registers 15 = 1 ↔ ∃ i, i < n ∧ ∃ j, j < 8 ∧
      s.memory (s.index + i) &&& (0x80 >>> j) ≠ 0 ∧
      s.display ((s.registers yr + i) % 32) ((s.registers xr + j) % 64) = false)

/-! ## Basic lemmas -/

theorem updf_same (f : Nat → Nat) (i v : Nat) : updf f i v i = v := by
  simp [updf]

theorem updf_other (f : Nat → Nat) (i v j : Nat) (h : j ≠ i) : updf f i v j = f j := by
  simp [updf, h]

/-! ## Dispatch lemmas: `execute` reduced on a known opcode pattern -/

theorem execute_B (s : Chip8) (op rnd : Nat) (h : op &&& 0xF000 = 0xB000) :
    execute s op rnd = Except.ok { s with pc := ((op &&& 0x0FFF) + s.registers 0) &&& 0x3FFF } := by
  simp only [execute]
  rw [h]
  norm_num

theorem execute_sub (s : Chip8) (op rnd : Nat) (h : op &&& 0xF000 = 0x8000)
    (hn : op &&& 0x000F = 0x5) :
    execute s op rnd = sub_registers s ((op &&& 0x0F00) >>> 8) ((op &&& 0x00F0) >>> 4) := by
  simp only [execute]
  rw [h, hn]
  norm_num

theorem execute_subn (s : Chip8) (op rnd : Nat) (h : op &&& 0xF000 = 0x8000)
    (hn : op &&& 0x000F = 0x7) :
    execute s op rnd = sub_registers_n s ((op &&& 0x0F00) >>> 8) ((op &&& 0x00F0) >>> 4) := by
  simp only [execute]
  rw [h, hn]
  norm_num

theorem execute_draw (s : Chip8) (op rnd : Nat) (h : op &&& 0xF000 = 0xD000) :
    execute s op rnd =
      draw_sprite s ((op &&& 0x0F00) >>> 8) ((op &&& 0x00F0) >>> 4) (op &&& 0x000F) := by
  simp only [execute]
  rw [h]
  norm_num

theorem execute_wait (s : Chip8) (op rnd : Nat) (h : op &&& 0xF000 = 0xF000)
    (hb : op &&& 0x00FF = 0x0A) :
    execute s op rnd = wait_for_input s ((op &&& 0x0F00) >>> 8) := by
  simp only [execute]
  rw [h, hb]
  norm_num

/-! ## Claim C1: CALL then RETURN -/

/-- C1.  The spec claims `2nnn` pushes the advanced `pc`, increments the stack
pointer, and jumps to `nnn`, so that a following `00EE` resumes right after
the call.  The code does not: `call_subroutine` stores the *target address*
in `stack[stack_pointer + 1]` and never writes `pc`.  With `pc = 0x202`,
executing `CALL 0x300` leaves `pc = 0x202` (no jump, `0x300` sits in the
stack), and the subsequent `RET` pops the never-written slot 0, setting
`pc = 0`, not `0x202`. -/
theorem claim1_call_return_code_bug :
    execute c1_s0 0x2300 0 = Except.ok c1_s1 ∧
    c1_s1.pc = 0x202 ∧
    c1_s1.stack 1 = 0x300 ∧
    c1_s1.stack_pointer = 1 ∧
    execute c1_s1 0x00EE 0 = Except.ok c1_s2 ∧
    c1_s2.pc = 0 ∧
    c1_s2.pc ≠ 0x202 := by
  refine ⟨rfl, rfl, rfl, rfl, rfl, rfl, ?_⟩
  decide

/-! ## Claim C2: arithmetic is supposed to wrap, the code aborts -/

/-- C2.  The spec claims every byte arithmetic instruction wraps modulo 256 and
never produces an error.  The code uses unchecked `+=` / `-=`, which abort on
overflow: `7xkk` with `V0 = 255, kk = 1`, `8xy5` with `V0 = 0 < V1 = 1`, and
`8xy7` with `V0 = 255 > V1 = 1` all fault instead of wrapping.  (`8xy4` and
the shifts do wrap, via `overflowing_add` and bit truncation.) -/
theorem claim2_wrapping_code_bug :
    execute c2_s0 0x7001 0 = Except.error Fault.arithmeticOverflow ∧
    execute c2_s1 0x8015 0 = Except.error Fault.arithmeticOverflow ∧
    execute c2_s0 0x8017 0 = Except.error Fault.arithmeticOverflow := by
  exact ⟨rfl, rfl, rfl⟩

/-! ## Claim C3: stack faults -/

/-- C3.  The spec claims `CALL` at depth 16 and `RETURN` on an empty stack are
reported as explicit `StackOverflow` / `StackUnderflow` fault values, with
bounds checked before the stack pointer mutates.  The code checks nothing:
`RET` with `stack_pointer = 0` runs `stack_pointer -= 1`, a u8 underflow
abort, and `CALL` with `stack_pointer = 15` pre-increments and writes
`stack[16]`, an out-of-bounds abort (so even depth 16 is unreachable: the
pre-increment wastes slot 0 and faults one call early). -/
theorem claim3_stack_fault_code_bug :
    execute Chip8.new 0x00EE 0 = Except.error Fault.arithmeticOverflow ∧
    execute c3_s15 0x2345 0 = Except.error Fault.indexOutOfBounds := by
  exact ⟨rfl, rfl⟩

/-! ## Claim C8: Bnnn jump target -/

/-- C8.  `Bnnn` sets `pc` to exactly `nnn + V0`: the source's `& 0x3FFF` mask
is the identity on every reachable sum (`nnn ≤ 0xFFF`, `V0 ≤ 0xFF`, so the sum
is at most `0x10FE < 0x4000`), while masking with `0x0FFF` would not be
(witness `0x1000`). -/
theorem claim8_bnnn_jump (s : Chip8) (op rnd : Nat) (h : op &&& 0xF000 = 0xB000)
    (h0 : s.registers 0 < 256) :
    execute s op rnd = Except.ok { s with pc := (op &&& 0x0FFF) + s.registers 0 } ∧
    ((op &&& 0x0FFF) + s.registers 0) &&& 0x3FFF = (op &&& 0x0FFF) + s.registers 0 ∧
    (0x0FFF + 1) &&& 0x0FFF ≠ 0x0FFF + 1 := by
  have h1 : op &&& 0x0FFF ≤ 0x0FFF := Nat.and_le_right
  have h2 : (op &&& 0x0FFF) + s.registers 0 < 2 ^ 14 := by
    norm_num at h1 ⊢
    omega
  have h3 := Nat.and_pow_two_sub_one_of_lt_two_pow h2
  norm_num at h3
  refine ⟨?_, h3, by decide⟩
  rw [execute_B s op rnd h, h3]

/-- Witness for C8 at `op = 0xB123` on a machine with `V0 = 200`
(`c10_s0.registers 0 = 200`): the jump lands on `0x123 + 200`. -/
theorem claim8_witness :
    execute c10_s0 0xB123 0 = Except.ok { c10_s0 with pc := (0xB123 &&& 0x0FFF) + c10_s0.registers 0 } ∧
    ((0xB123 &&& 0x0FFF) + c10_s0.registers 0) &&& 0x3FFF = (0xB123 &&& 0x0FFF) + c10_s0.registers 0 ∧
    (0x0FFF + 1) &&& 0x0FFF ≠ 0x0FFF + 1 :=
  claim8_bnnn_jump c10_s0 0xB123 0 (by decide) (by decide)

/-! ## Claim C5: VF borrow flags of 8xy5 / 8xy7 -/

/-- Counterexample to C5 as stated.  With `x = 0xF` (opcode `8F15`), `VF = 5`,
`V1 = 1`: the claim demands `VF = 1` (since `Vx = 5 ≥ Vy = 1`) and `Vx = 4`.
The code writes the flag into `VF` *before* subtracting, so the subtraction
uses the flag as its left operand and ends with `VF = 1 - 1 = 0`. -/
theorem claim5_counterexample :
    c5_s.registers 15 = 5 ∧ c5_s.registers 1 = 1 ∧
    execute c5_s 0x8F15 0 = Except.ok c5_t ∧
    c5_t.registers 15 = 0 ∧ c5_t.registers 15 ≠ 1 := by
  refine ⟨rfl, rfl, rfl, rfl, ?_⟩
  decide

/-- C5, amended: for `x ≠ 0xF` and `y ≠ 0xF`, `8xy5` sets `VF = 1` exactly when
`Vx ≥ Vy` and stores `Vx - Vy`, and `8xy7` sets `VF = 1` exactly when
`Vy ≥ Vx` and stores `Vy - Vx`; in the strictly-smaller cases the unchecked
`u8` subtraction aborts (the flag value 0 is written but execution dies), and
when `x` or `y` is `0xF` the early flag write corrupts the operands
(see the counterexample). -/
theorem claim5_borrow_flags (s : Chip8) (op5 op7 rnd : Nat)
    (h5 : op5 &&& 0xF000 = 0x8000) (h5n : op5 &&& 0x000F = 0x5)
    (h7 : op7 &&& 0xF000 = 0x8000) (h7n : op7 &&& 0x000F = 0x7)
    (hx5 : (op5 &&& 0x0F00) >>> 8 ≠ 15) (hy5 : (op5 &&& 0x00F0) >>> 4 ≠ 15)
    (hx7 : (op7 &&& 0x0F00) >>> 8 ≠ 15) (hy7 : (op7 &&& 0x00F0) >>> 4 ≠ 15) :
    (s.registers ((op5 &&& 0x00F0) >>> 4) ≤ s.registers ((op5 &&& 0x0F00) >>> 8) →
      execute s op5 rnd = Except.ok { s with registers := updf (updf s.registers 15 1) ((op5 &&& 0x0F00) >>> 8) (s.registers ((op5 &&& 0x0F00) >>> 8) - s.registers ((op5 &&& 0x00F0) >>> 4)) }) ∧
    (s.registers ((op5 &&& 0x0F00) >>> 8) < s.registers ((op5 &&& 0x00F0) >>> 4) →
      execute s op5 rnd = Except.error Fault.arithmeticOverflow) ∧
    (s.registers ((op7 &&& 0x0F00) >>> 8) ≤ s.registers ((op7 &&& 0x00F0) >>> 4) →
      execute s op7 rnd = Except.ok { s with registers := updf (updf s.registers 15 1) ((op7 &&& 0x0F00) >>> 8) (s.registers ((op7 &&& 0x00F0) >>> 4) - s.registers ((op7 &&& 0x0F00) >>> 8)) }) ∧
    (s.registers ((op7 &&& 0x00F0) >>> 4) < s.registers ((op7 &&& 0x0F00) >>> 8) →
      execute s op7 rnd = Except.error Fault.arithmeticOverflow) := by
  refine ⟨?_, ?_, ?_, ?_⟩
  · intro hle
    rw [execute_sub s op5 rnd h5 h5n]
    simp only [sub_registers, if_pos hle,
      updf_other _ _ _ _ hx5, updf_other _ _ _ _ hy5, if_pos hle]
  · intro hlt
    rw [execute_sub s op5 rnd h5 h5n]
    simp only [sub_registers, updf_other _ _ _ _ hx5, updf_other _ _ _ _ hy5]
    rw [if_neg (by omega)]
  · intro hle
    rw [execute_subn s op7 rnd h7 h7n]
    simp only [sub_registers_n, if_pos hle,
      updf_other _ _ _ _ hx7, updf_other _ _ _ _ hy7, if_pos hle]
  · intro hlt
    rw [execute_subn s op7 rnd h7 h7n]
    simp only [sub_registers_n, updf_other _ _ _ _ hx7, updf_other _ _ _ _ hy7]
    rw [if_neg (by omega)]

/-- Witness for the amended C5 on `c2_s1` (`V0 = 0`, `V1 = 1`), opcodes `8015`
and `8017`: `8015` has `V0 < V1` and aborts, `8017` has `V1 ≥ V0` and stores
`1 - 0` with `VF = 1`. -/
theorem claim5_witness :
    (c2_s1.registers 1 ≤ c2_s1.registers 0 →
      execute c2_s1 0x8015 0 = Except.ok { c2_s1 with registers := updf (updf c2_s1.registers 15 1) 0 (c2_s1.registers 0 - c2_s1.registers 1) }) ∧
    (c2_s1.registers 0 < c2_s1.registers 1 →
      execute c2_s1 0x8015 0 = Except.error Fault.arithmeticOverflow) ∧
    (c2_s1.registers 0 ≤ c2_s1.registers 1 →
      execute c2_s1 0x8017 0 = Except.ok { c2_s1 with registers := updf (updf c2_s1.registers 15 1) 0 (c2_s1.registers 1 - c2_s1.registers 0) }) ∧
    (c2_s1.registers 1 < c2_s1.registers 0 →
      execute c2_s1 0x8017 0 = Except.error Fault.arithmeticOverflow) :=
  claim5_borrow_flags c2_s1 0x8015 0x8017 0 (by decide) (by decide) (by decide) (by decide)
    (by decide) (by decide) (by decide) (by decide)

/-! ## Bounds behaviour of the unguarded memory loops (claim C10) -/

theorem drawRows_ok_of_bound (mem : Nat → Nat) (idx y0 x0 : Nat) :
    ∀ fuel yoff st, (fuel = 0 ∨ idx + yoff + fuel ≤ 4096) →
      ∃ st', drawRows mem idx y0 x0 yoff fuel st = Except.ok st' := by
  intro fuel
  induction fuel with
  | zero => intro yoff st _; exact ⟨st, rfl⟩
  | succ f ih =>
    intro yoff st hb
    unfold drawRows
    rw [if_pos (by omega)]
    exact ih (yoff + 1) _ (by omega)

theorem drawRows_err (mem : Nat → Nat) (idx y0 x0 : Nat) :
    ∀ fuel yoff st, 0 < fuel → 4096 < idx + yoff + fuel →
      drawRows mem idx y0 x0 yoff fuel st = Except.error Fault.indexOutOfBounds := by
  intro fuel
  induction fuel with
  | zero => intro yoff st h; omega
  | succ f ih =>
    intro yoff st _ hb
    unfold drawRows
    by_cases hlt : idx + yoff < 4096
    · rw [if_pos hlt]
      exact ih (yoff + 1) _ (by omega) (by omega)
    · rw [if_neg hlt]

theorem store_regs_ok_of_bound (regs : Nat → Nat) (idx : Nat) :
    ∀ fuel k mem, (fuel = 0 ∨ idx + k + fuel ≤ 4096) →
      ∃ mem', store_regs regs idx k fuel mem = Except.ok mem' := by
  intro fuel
  induction fuel with
  | zero => intro k mem _; exact ⟨mem, rfl⟩
  | succ f ih =>
    intro k mem hb
    unfold store_regs
    rw [if_pos (by omega)]
    exact ih (k + 1) _ (by omega)

theorem store_regs_err (regs : Nat → Nat) (idx : Nat) :
    ∀ fuel k mem, 0 < fuel → 4096 < idx + k + fuel →
      store_regs regs idx k fuel mem = Except.error Fault.indexOutOfBounds := by
  intro fuel
  induction fuel with
  | zero => intro k mem h; omega
  | succ f ih =>
    intro k mem _ hb
    unfold store_regs
    by_cases hlt : idx + k < 4096
    · rw [if_pos hlt]
      exact ih (k + 1) _ (by omega) (by omega)
    · rw [if_neg hlt]

theorem load_regs_ok_of_bound (mem : Nat → Nat) (idx : Nat) :
    ∀ fuel k regs, (fuel = 0 ∨ idx + k + fuel ≤ 4096) →
      ∃ regs', load_regs mem idx k fuel regs = Except.ok regs' := by
  intro fuel
  induction fuel with
  | zero => intro k regs _; exact ⟨regs, rfl⟩
  | succ f ih =>
    intro k regs hb
    unfold load_regs
    rw [if_pos (by omega)]
    exact ih (k + 1) _ (by omega)

theorem load_regs_err (mem : Nat → Nat) (idx : Nat) :
    ∀ fuel k regs, 0 < fuel → 4096 < idx + k + fuel →
      load_regs mem idx k fuel regs = Except.error Fault.indexOutOfBounds := by
  intro fuel
  induction fuel with
  | zero => intro k regs h; omega
  | succ f ih =>
    intro k regs _ hb
    unfold load_regs
    by_cases hlt : idx + k < 4096
    · rw [if_pos hlt]
      exact ih (k + 1) _ (by omega) (by omega)
    · rw [if_neg hlt]

theorem draw_sprite_isOk (s : Chip8) (xr yr n : Nat) :
    (∃ t, draw_sprite s xr yr n = Except.ok t) ↔ (n = 0 ∨ s.index + n ≤ 4096) := by
  constructor
  · rintro ⟨t, ht⟩
    by_contra hc
    push_neg at hc
    simp only [draw_sprite] at ht
    rw [drawRows_err s.memory s.index (s.registers yr) (s.registers xr) n 0
      { display := s.display, carry := false } (by omega) (by omega)] at ht
    exact Except.noConfusion ht
  · intro hb
    obtain ⟨st', hst⟩ := drawRows_ok_of_bound s.memory s.index (s.registers yr) (s.registers xr)
      n 0 { display := s.display, carry := false } (by omega)
    simp only [draw_sprite]
    rw [hst]
    exact ⟨_, rfl⟩

theorem store_binary_coded_decimal_isOk (s : Chip8) (x : Nat) :
    (∃ t, store_binary_coded_decimal s x = Except.ok t) ↔ s.index + 2 < 4096 := by
  simp only [store_binary_coded_decimal]
  split_ifs with h1 h2 h3
  all_goals constructor
  all_goals first
    | (rintro ⟨t, ht⟩; exact Except.noConfusion ht)
    | (rintro ⟨t, ht⟩; exact ht.elim)
    | (intro h; exact ⟨_, rfl⟩)
    | (intro h; omega)
    | (intro h; exfalso; omega)

theorem store_many_registers_isOk (s : Chip8) (x : Nat) :
    (∃ t, store_many_registers s x = Except.ok t) ↔ (x = 0 ∨ s.index + x ≤ 4096) := by
  constructor
  · rintro ⟨t, ht⟩
    by_contra hc
    push_neg at hc
    simp only [store_many_registers] at ht
    rw [store_regs_err s.registers s.index x 0 s.memory (by omega) (by omega)] at ht
    exact Except.noConfusion ht
  · intro hb
    obtain ⟨mem', hm⟩ := store_regs_ok_of_bound s.registers s.index x 0 s.memory (by omega)
    simp only [store_many_registers]
    rw [hm]
    exact ⟨_, rfl⟩

theorem load_many_registers_isOk (s : Chip8) (x : Nat) :
    (∃ t, load_many_registers s x = Except.ok t) ↔ (x = 0 ∨ s.index + x ≤ 4096) := by
  constructor
  · rintro ⟨t, ht⟩
    by_contra hc
    push_neg at hc
    simp only [load_many_registers] at ht
    rw [load_regs_err s.memory s.index x 0 s.registers (by omega) (by omega)] at ht
    exact Except.noConfusion ht
  · intro hb
    obtain ⟨regs', hr⟩ := load_regs_ok_of_bound s.memory s.index x 0 s.registers (by omega)
    simp only [load_many_registers]
    rw [hr]
    exact ⟨_, rfl⟩

/-- C10.  The sprite, BCD, and register-block loops have no bounds guard of
their own, so they abort exactly when the highest accessed address reaches
4096: `Dxyn` succeeds iff `n = 0` or `index + n ≤ 4096`, `Fx33` iff
`index + 2 < 4096`, `Fx55`/`Fx65` iff `x = 0` or `index + x ≤ 4096`.  Nothing
maintains these preconditions: `Fx1E` adds `Vx` to `index` unchecked, and
from `index = 4000`, `V0 = 200`, one `F01E` yields `index = 4200`, after
which both `F033` and `D011` abort. -/
theorem claim10_unguarded_access :
    (∀ (s : Chip8) (xr yr n : Nat),
      (∃ t, draw_sprite s xr yr n = Except.ok t) ↔ (n = 0 ∨ s.index + n ≤ 4096)) ∧
    (∀ (s : Chip8) (x : Nat),
      (∃ t, store_binary_coded_decimal s x = Except.ok t) ↔ s.index + 2 < 4096) ∧
    (∀ (s : Chip8) (x : Nat),
      (∃ t, store_many_registers s x = Except.ok t) ↔ (x = 0 ∨ s.index + x ≤ 4096)) ∧
    (∀ (s : Chip8) (x : Nat),
      (∃ t, load_many_registers s x = Except.ok t) ↔ (x = 0 ∨ s.index + x ≤ 4096)) ∧
    execute c10_s0 0xF01E 0 = Except.ok c10_s1 ∧
    c10_s1.index = 4200 ∧
    execute c10_s1 0xF033 0 = Except.error Fault.indexOutOfBounds ∧
    execute c10_s1 0xD011 0 = Except.error Fault.indexOutOfBounds := by
  refine ⟨draw_sprite_isOk, store_binary_coded_decimal_isOk, store_many_registers_isOk,
    load_many_registers_isOk, rfl, rfl, rfl, rfl⟩

/-! ## Memory preservation (claim C7) -/

theorem mem_return_subroutine (s t : Chip8) (h : return_subroutine s = Except.ok t) :
    t.memory = s.memory := by
  simp only [return_subroutine] at h
  split_ifs at h <;> first
    | (injection h with h2; subst h2; rfl)
    | exact Except.noConfusion h

theorem mem_call_subroutine (s : Chip8) (addr : Nat) (t : Chip8)
    (h : call_subroutine s addr = Except.ok t) : t.memory = s.memory := by
  simp only [call_subroutine] at h
  split_ifs at h <;> first
    | (injection h with h2; subst h2; rfl)
    | exact Except.noConfusion h

theorem mem_skip_if_condition (s : Chip8) (c : Bool) (t : Chip8)
    (h : skip_if_condition s c = Except.ok t) : t.memory = s.memory := by
  simp only [skip_if_condition] at h
  split_ifs at h <;> first
    | (injection h with h2; subst h2; rfl)
    | exact Except.noConfusion h

theorem mem_add_registers (s : Chip8) (x y : Nat) (t : Chip8)
    (h : add_registers s x y = Except.ok t) : t.memory = s.memory := by
  simp only [add_registers] at h
  injection h with h2
  subst h2
  rfl

theorem mem_sub_registers (s : Chip8) (x y : Nat) (t : Chip8)
    (h : sub_registers s x y = Except.ok t) : t.memory = s.memory := by
  simp only [sub_registers] at h
  split_ifs at h <;> first
    | (injection h with h2; subst h2; rfl)
    | exact Except.noConfusion h

theorem mem_sub_registers_n (s : Chip8) (x y : Nat) (t : Chip8)
    (h : sub_registers_n s x y = Except.ok t) : t.memory = s.memory := by
  simp only [sub_registers_n] at h
  split_ifs at h <;> first
    | (injection h with h2; subst h2; rfl)
    | exact Except.noConfusion h

theorem mem_shift_right (s : Chip8) (x : Nat) (t : Chip8)
    (h : shift_right s x = Except.ok t) : t.memory = s.memory := by
  simp only [shift_right] at h
  injection h with h2
  subst h2
  rfl

theorem mem_shift_left (s : Chip8) (x : Nat) (t : Chip8)
    (h : shift_left s x = Except.ok t) : t.memory = s.memory := by
  simp only [shift_left] at h
  injection h with h2
  subst h2
  rfl

theorem mem_draw_sprite (s : Chip8) (xr yr n : Nat) (t : Chip8)
    (h : draw_sprite s xr yr n = Except.ok t) : t.memory = s.memory := by
  simp only [draw_sprite] at h
  split at h <;> first
    | (injection h with h2; subst h2; rfl)
    | exact Except.noConfusion h

theorem mem_wait_for_input (s : Chip8) (x : Nat) (t : Chip8)
    (h : wait_for_input s x = Except.ok t) : t.memory = s.memory := by
  simp only [wait_for_input] at h
  split at h
  · injection h with h2; subst h2; rfl
  · split_ifs at h <;> first
      | (injection h with h2; subst h2; rfl)
      | exact Except.noConfusion h

theorem mem_load_font (s : Chip8) (x : Nat) (t : Chip8)
    (h : load_font s x = Except.ok t) : t.memory = s.memory := by
  simp only [load_font] at h
  injection h with h2
  subst h2
  rfl

theorem mem_load_many_registers (s : Chip8) (x : Nat) (t : Chip8)
    (h : load_many_registers s x = Except.ok t) : t.memory = s.memory := by
  simp only [load_many_registers] at h
  split at h <;> first
    | (injection h with h2; subst h2; rfl)
    | exact Except.noConfusion h

theorem store_regs_low (regs : Nat → Nat) (idx : Nat) :
    ∀ fuel k mem mem', store_regs regs idx k fuel mem = Except.ok mem' →
      ∀ a, a < idx → mem' a = mem a := by
  intro fuel
  induction fuel with
  | zero =>
    intro k mem mem' h a ha
    simp only [store_regs] at h
    injection h with h2
    subst h2
    rfl
  | succ f ih =>
    intro k mem mem' h a ha
    simp only [store_regs] at h
    split_ifs at h
    rw [ih (k + 1) _ mem' h a ha, updf_other _ _ _ _ (by omega)]

theorem mem_store_many_registers_low (s : Chip8) (x : Nat) (t : Chip8)
    (h : store_many_registers s x = Except.ok t) :
    ∀ a, a < s.index → t.memory a = s.memory a := by
  intro a ha
  simp only [store_many_registers] at h
  split at h
  · injection h with h2
    subst h2
    exact store_regs_low s.registers s.index x 0 s.memory _ (by assumption) a ha
  · exact Except.noConfusion h

theorem mem_bcd_low (s : Chip8) (x : Nat) (t : Chip8)
    (h : store_binary_coded_decimal s x = Except.ok t) :
    ∀ a, a < s.index → t.memory a = s.memory a := by
  intro a ha
  simp only [store_binary_coded_decimal] at h
  split_ifs at h
  injection h with h2
  subst h2
  show updf (updf (updf s.memory _ _) _ _) _ _ a = s.memory a
  rw [updf_other _ _ _ _ (by omega), updf_other _ _ _ _ (by omega),
    updf_other _ _ _ _ (by omega)]

/-! ## Claim C7: the font table and program execution -/

/-- Counterexample to C7 as stated.  With `index = 0` (its initial value) and
`V3 = 155`, opcode `F333` (store BCD) writes the hundreds digit 1 over
`memory[0]`, which held the font byte `0xF0`: the §4 execution path `Fx33`
does overwrite font bytes for small `index`. -/
theorem claim7_counterexample :
    c7_s.index = 0 ∧
    c7_s.memory 0 = 0xF0 ∧
    execute c7_s 0xF333 0 = Except.ok c7_t ∧
    c7_t.memory 0 = 1 ∧
    c7_t.memory 0 ≠ c7_s.memory 0 := by
  refine ⟨rfl, rfl, rfl, rfl, ?_⟩
  decide

set_option maxHeartbeats 2000000 in
/-- C7, amended: every instruction leaves the font bytes `memory[0..79]`
unchanged *provided* `index ≥ 80` (all memory writes of `Fx33` and `Fx55`
land at `index` or above; no other instruction writes memory at all).
Without that precondition the claim fails, see the counterexample. -/
theorem claim7_font_preserved (s : Chip8) (op rnd : Nat) (t : Chip8)
    (hidx : 80 ≤ s.index) (h : execute s op rnd = Except.ok t) :
    ∀ a, a < 80 → t.memory a = s.memory a := by
  intro a ha
  revert h
  simp only [execute]
  by_cases hc1 : op &&& 0xF000 = 0x0000
  · rw [if_pos hc1]
    by_cases hc2 : op = 0x00E0
    · rw [if_pos hc2]
      intro h
      injection h with h2
      subst h2
      rfl
    · rw [if_neg hc2]
      by_cases hc3 : op = 0x00EE
      · rw [if_pos hc3]
        intro h
        rw [mem_return_subroutine _ _ h]
      · rw [if_neg hc3]
        intro h
        injection h with h2
        subst h2
        rfl
  · rw [if_neg hc1]
    by_cases hc4 : op &&& 0xF000 = 0x1000
    · rw [if_pos hc4]
      intro h
      injection h with h2
      subst h2
      rfl
    · rw [if_neg hc4]
      by_cases hc5 : op &&& 0xF000 = 0x2000
      · rw [if_pos hc5]
        intro h
        rw [mem_call_subroutine _ _ _ h]
      · rw [if_neg hc5]
        by_cases hc6 : op &&& 0xF000 = 0x3000
        · rw [if_pos hc6]
          intro h
          rw [mem_skip_if_condition _ _ _ h]
        · rw [if_neg hc6]
          by_cases hc7 : op &&& 0xF000 = 0x4000
          · rw [if_pos hc7]
            intro h
            rw [mem_skip_if_condition _ _ _ h]
          · rw [if_neg hc7]
            by_cases hc8 : op &&& 0xF000 = 0x5000
            · rw [if_pos hc8]
              intro h
              rw [mem_skip_if_condition _ _ _ h]
            · rw [if_neg hc8]
              by_cases hc9 : op &&& 0xF000 = 0x6000
              · rw [if_pos hc9]
                intro h
                injection h with h2
                subst h2
                rfl
              · rw [if_neg hc9]
                by_cases hc10 : op &&& 0xF000 = 0x7000
                · rw [if_pos hc10]
                  by_cases hc11 : s.registers ((op &&& 0x0F00) >>> 8) + (op &&& 0x00FF) < 256
                  · rw [if_pos hc11]
                    intro h
                    injection h with h2
                    subst h2
                    rfl
                  · rw [if_neg hc11]
                    intro h
                    exact Except.noConfusion h
                · rw [if_neg hc10]
                  by_cases hc12 : op &&& 0xF000 = 0x8000
                  · rw [if_pos hc12]
                    by_cases hc13 : op &&& 0x000F = 0x0
                    · rw [if_pos hc13]
                      intro h
                      injection h with h2
                      subst h2
                      rfl
                    · rw [if_neg hc13]
                      by_cases hc14 : op &&& 0x000F = 0x1
                      · rw [if_pos hc14]
                        intro h
                        injection h with h2
                        subst h2
                        rfl
                      · rw [if_neg hc14]
                        by_cases hc15 : op &&& 0x000F = 0x2
                        · rw [if_pos hc15]
                          intro h
                          injection h with h2
                          subst h2
                          rfl
                        · rw [if_neg hc15]
                          by_cases hc16 : op &&& 0x000F = 0x3
                          · rw [if_pos hc16]
                            intro h
                            injection h with h2
                            subst h2
                            rfl
                          · rw [if_neg hc16]
                            by_cases hc17 : op &&& 0x000F = 0x4
                            · rw [if_pos hc17]
                              intro h
                              rw [mem_add_registers _ _ _ _ h]
                            · rw [if_neg hc17]
                              by_cases hc18 : op &&& 0x000F = 0x5
                              · rw [if_pos hc18]
                                intro h
                                rw [mem_sub_registers _ _ _ _ h]
                              · rw [if_neg hc18]
                                by_cases hc19 : op &&& 0x000F = 0x6
                                · rw [if_pos hc19]
                                  intro h
                                  rw [mem_shift_right _ _ _ h]
                                · rw [if_neg hc19]
                                  by_cases hc20 : op &&& 0x000F = 0x7
                                  · rw [if_pos hc20]
                                    intro h
                                    rw [mem_sub_registers_n _ _ _ _ h]
                                  · rw [if_neg hc20]
                                    by_cases hc21 : op &&& 0x000F = 0xE
                                    · rw [if_pos hc21]
                                      intro h
                                      rw [mem_shift_left _ _ _ h]
                                    · rw [if_neg hc21]
                                      intro h
                                      injection h with h2
                                      subst h2
                                      rfl
                  · rw [if_neg hc12]
                    by_cases hc22 : op &&& 0xF000 = 0x9000
                    · rw [if_pos hc22]
                      intro h
                      rw [mem_skip_if_condition _ _ _ h]
                    · rw [if_neg hc22]
                      by_cases hc23 : op &&& 0xF000 = 0xA000
                      · rw [if_pos hc23]
                        intro h
                        injection h with h2
                        subst h2
                        rfl
                      · rw [if_neg hc23]
                        by_cases hc24 : op &&& 0xF000 = 0xB000
                        · rw [if_pos hc24]
                          intro h
                          injection h with h2
                          subst h2
                          rfl
                        · rw [if_neg hc24]
                          by_cases hc25 : op &&& 0xF000 = 0xC000
                          · rw [if_pos hc25]
                            intro h
                            injection h with h2
                            subst h2
                            rfl
                          · rw [if_neg hc25]
                            by_cases hc26 : op &&& 0xF000 = 0xD000
                            · rw [if_pos hc26]
                              intro h
                              rw [mem_draw_sprite _ _ _ _ _ h]
                            · rw [if_neg hc26]
                              by_cases hc27 : op &&& 0xF000 = 0xE000
                              · rw [if_pos hc27]
                                by_cases hc28 : op &&& 0x00FF = 0x9E
                                · rw [if_pos hc28]
                                  by_cases hc29 : s.registers ((op &&& 0x0F00) >>> 8) < 16
                                  · rw [if_pos hc29]
                                    intro h
                                    rw [mem_skip_if_condition _ _ _ h]
                                  · rw [if_neg hc29]
                                    intro h
                                    exact Except.noConfusion h
                                · rw [if_neg hc28]
                                  by_cases hc30 : op &&& 0x00FF = 0xA1
                                  · rw [if_pos hc30]
                                    by_cases hc31 : s.registers ((op &&& 0x0F00) >>> 8) < 16
                                    · rw [if_pos hc31]
                                      intro h
                                      rw [mem_skip_if_condition _ _ _ h]
                                    · rw [if_neg hc31]
                                      intro h
                                      exact Except.noConfusion h
                                  · rw [if_neg hc30]
                                    intro h
                                    injection h with h2
                                    subst h2
                                    rfl
                              · rw [if_neg hc27]
                                by_cases hc32 : op &&& 0xF000 = 0xF000
                                · rw [if_pos hc32]
                                  by_cases hc33 : op &&& 0x00FF = 0x07
                                  · rw [if_pos hc33]
                                    intro h
                                    injection h with h2
                                    subst h2
                                    rfl
                                  · rw [if_neg hc33]
                                    by_cases hc34 : op &&& 0x00FF = 0x0A
                                    · rw [if_pos hc34]
                                      intro h
                                      rw [mem_wait_for_input _ _ _ h]
                                    · rw [if_neg hc34]
                                      by_cases hc35 : op &&& 0x00FF = 0x15
                                      · rw [if_pos hc35]
                                        intro h
                                        injection h with h2
                                        subst h2
                                        rfl
                                      · rw [if_neg hc35]
                                        by_cases hc36 : op &&& 0x00FF = 0x18
                                        · rw [if_pos hc36]
                                          intro h
                                          injection h with h2
                                          subst h2
                                          rfl
                                        · rw [if_neg hc36]
                                          by_cases hc37 : op &&& 0x00FF = 0x1E
                                          · rw [if_pos hc37]
                                            by_cases hc38 : s.index + s.registers ((op &&& 0x0F00) >>> 8) < 65536
                                            · rw [if_pos hc38]
                                              intro h
                                              injection h with h2
                                              subst h2
                                              rfl
                                            · rw [if_neg hc38]
                                              intro h
                                              exact Except.noConfusion h
                                          · rw [if_neg hc37]
                                            by_cases hc39 : op &&& 0x00FF = 0x29
                                            · rw [if_pos hc39]
                                              intro h
                                              rw [mem_load_font _ _ _ h]
                                            · rw [if_neg hc39]
                                              by_cases hc40 : op &&& 0x00FF = 0x33
                                              · rw [if_pos hc40]
                                                intro h
                                                exact mem_bcd_low _ _ _ h a (by omega)
                                              · rw [if_neg hc40]
                                                by_cases hc41 : op &&& 0x00FF = 0x55
                                                · rw [if_pos hc41]
                                                  intro h
                                                  exact mem_store_many_registers_low _ _ _ h a (by omega)
                                                · rw [if_neg hc41]
                                                  by_cases hc42 : op &&& 0x00FF = 0x65
                                                  · rw [if_pos hc42]
                                                    intro h
                                                    rw [mem_load_many_registers _ _ _ h]
                                                  · rw [if_neg hc42]
                                                    intro h
                                                    injection h with h2
                                                    subst h2
                                                    rfl
                                · rw [if_neg hc32]
                                  intro h
                                  injection h with h2
                                  subst h2
                                  rfl

/-- Witness for the amended C7: on `c7_s80` (`index = 80`, `V3 = 155`) the
same `F333` leaves font byte 0 alone. -/
theorem claim7_witness : c7_t80.memory 0 = c7_s80.memory 0 :=
  claim7_font_preserved c7_s80 0xF333 0 c7_t80 (by decide) rfl 0 (by decide)

/-! ## Claim C6: Fx0A, wait for key -/

theorem scan_keys_none (inputs : Nat → Bool) :
    ∀ fuel k, scan_keys inputs k fuel = none ↔
      ∀ j, k ≤ j → j < k + fuel → inputs j = false := by
  intro fuel
  induction fuel with
  | zero =>
    intro k
    constructor
    · intro _ j hj1 hj2
      omega
    · intro _
      rfl
  | succ f ih =>
    intro k
    simp only [scan_keys]
    by_cases hk : inputs k = true
    · rw [if_pos hk]
      constructor
      · intro hcontra
        exact Option.noConfusion hcontra
      · intro hall
        exact absurd (hall k (Nat.le_refl k) (by omega)) (by simp [hk])
    · rw [if_neg hk]
      rw [ih (k + 1)]
      constructor
      · intro hall j hj1 hj2
        by_cases hjk : j = k
        · subst hjk
          simpa using hk
        · exact hall j (by omega) (by omega)
      · intro hall j hj1 hj2
        exact hall j (by omega) (by omega)

theorem scan_keys_some (inputs : Nat → Bool) :
    ∀ fuel k m, scan_keys inputs k fuel = some m →
      k ≤ m ∧ m < k + fuel ∧ inputs m = true ∧ ∀ j, k ≤ j → j < m → inputs j = false := by
  intro fuel
  induction fuel with
  | zero =>
    intro k m h
    exact Option.noConfusion h
  | succ f ih =>
    intro k m h
    simp only [scan_keys] at h
    by_cases hk : inputs k = true
    · rw [if_pos hk] at h
      injection h with h2
      subst h2
      exact ⟨Nat.le_refl _, by omega, hk, fun j h1 h2 => by omega⟩
    · rw [if_neg hk] at h
      obtain ⟨a1, a2, a3, a4⟩ := ih (k + 1) m h
      refine ⟨by omega, by omega, a3, ?_⟩
      intro j h1 h2
      by_cases hjk : j = k
      · subst hjk
        simpa using hk
      · exact a4 j (by omega) h2

/-- C6.  A cycle whose fetched instruction is `Fx0A` scans keys 0..15 in
ascending order: with a key held, the lowest held key's number is written to
register `x` and `pc` stays fetch-advanced; with no key held, `pc` rolls back
by 2 (the instruction re-runs next cycle); either way the timers still
decrement once that cycle. -/
theorem claim6_wait_for_key (s : Chip8) (rnd : Nat)
    (hpc : s.pc + 1 < 4096)
    (hhi : fetched s &&& 0xF000 = 0xF000)
    (hlo : fetched s &&& 0x00FF = 0x0A) :
    WaitCycleSpec s rnd := by
  unfold WaitCycleSpec
  simp only [emulate]
  rw [if_pos (by omega : s.pc + 1 < 4096), if_pos (by omega : s.pc + 2 < 65536)]
  rw [execute_wait _ _ rnd hhi hlo]
  simp only [wait_for_input]
  cases hscan : scan_keys s.inputs 0 16 with
  | none =>
    rw [if_pos (by omega : 2 ≤ s.pc + 2)]
    refine ⟨_, rfl, ?_, ?_, ?_, ?_⟩
    · show (if s.delay_timer > 0 then s.delay_timer - 1 else s.delay_timer) = s.delay_timer - 1
      split <;> omega
    · show (if s.sound_timer > 0 then s.sound_timer - 1 else s.sound_timer) = s.sound_timer - 1
      split <;> omega
    · intro _
      constructor
      · show s.pc + 2 - 2 = s.pc
        omega
      · rfl
    · intro k hk hheld _
      have := (scan_keys_none s.inputs 16 0).mp hscan k (Nat.zero_le k) (by omega)
      rw [hheld] at this
      exact Bool.noConfusion this
  | some m =>
    obtain ⟨_, hm16, hmheld, hmlow⟩ := scan_keys_some s.inputs 16 0 m hscan
    refine ⟨_, rfl, ?_, ?_, ?_, ?_⟩
    · show (if s.delay_timer > 0 then s.delay_timer - 1 else s.delay_timer) = s.delay_timer - 1
      split <;> omega
    · show (if s.sound_timer > 0 then s.sound_timer - 1 else s.sound_timer) = s.sound_timer - 1
      split <;> omega
    · intro hall
      rw [hall m (by omega)] at hmheld
      exact Bool.noConfusion hmheld
    · intro k hk hheld hlow
      have hkm : ¬ m < k := by
        intro hlt
        rw [hlow m hlt] at hmheld
        exact Bool.noConfusion hmheld
      have hmk : ¬ k < m := by
        intro hlt
        rw [hmlow k (Nat.zero_le k) hlt] at hheld
        exact Bool.noConfusion hheld
      have : m = k := by omega
      subst this
      exact ⟨rfl, updf_same _ _ _⟩

/-- Witness for C6 on `c6_s`, whose ROM at `0x200` is `F30A` and whose keys are
all up. -/
theorem claim6_witness : WaitCycleSpec c6_s 0 :=
  claim6_wait_for_key c6_s 0 (by decide) (by decide) (by decide)

/-! ## Draw characterization: helper lemmas -/

theorem addModNe' (z d m : Nat) (hd1 : 0 < d) (hd2 : d < m) : z % m ≠ (z + d) % m := by
  intro h
  have hmod : z ≡ z + d [MOD m] := h
  have hdvd : m ∣ z + d - z := (Nat.modEq_iff_dvd' (by omega)).mp hmod
  rw [Nat.add_sub_cancel_left] at hdvd
  exact absurd (Nat.le_of_dvd hd1 hdvd) (by omega)

theorem addModNe (z m a b : Nat) (ha : a < m) (hb : b < m) (hne : a ≠ b) :
    (z + a) % m ≠ (z + b) % m := by
  rcases Nat.lt_or_ge a b with hab | hab
  · have := addModNe' (z + a) (b - a) m (by omega) (by omega)
    rw [show z + a + (b - a) = z + b by omega] at this
    exact this
  · have := addModNe' (z + b) (a - b) m (by omega) (by omega)
    rw [show z + b + (a - b) = z + a by omega] at this
    exact fun hcontra => this hcontra.symm

theorem drawPix_nobit (src y0 x0 yoff xoff : Nat) (st : DrawState)
    (h : src &&& (0x80 >>> xoff) = 0) : drawPix src y0 x0 yoff xoff st = st := by
  simp [drawPix, h]

theorem drawPix_display_bit (src y0 x0 yoff xoff : Nat) (st : DrawState)
    (h : src &&& (0x80 >>> xoff) ≠ 0) (r c : Nat) :
    (drawPix src y0 x0 yoff xoff st).display r c =
      if r = (y0 + yoff) % 32 ∧ c = (x0 + xoff) % 64 then
        !st.display ((y0 + yoff) % 32) ((x0 + xoff) % 64)
      else st.display r c := by
  simp only [drawPix, bne_iff_ne, ne_eq, h, not_false_eq_true, if_true]

theorem drawPix_carry_bit (src y0 x0 yoff xoff : Nat) (st : DrawState)
    (h : src &&& (0x80 >>> xoff) ≠ 0) :
    (drawPix src y0 x0 yoff xoff st).carry =
      (st.carry || st.display ((y0 + yoff) % 32) ((x0 + xoff) % 64)) := by
  simp only [drawPix, bne_iff_ne, ne_eq, h, not_false_eq_true, if_true]
  cases hc : st.carry <;> cases hd : st.display ((y0 + yoff) % 32) ((x0 + xoff) % 64) <;>
    simp [hc, hd]

theorem rowHit_zero (src y0 x0 yoff xoff r c : Nat) :
    ¬ rowHit src y0 x0 yoff xoff 0 r c := by
  rintro ⟨j, h1, h2, _⟩
  omega

theorem rowCollide_zero (src y0 x0 yoff xoff : Nat) (d : Nat → Nat → Bool) :
    ¬ rowCollide src y0 x0 yoff xoff 0 d := by
  rintro ⟨j, h1, h2, _⟩
  omega

theorem rowHit_cons (src y0 x0 yoff xoff fuel r c : Nat) :
    rowHit src y0 x0 yoff xoff (fuel + 1) r c ↔
      ((src &&& (0x80 >>> xoff) ≠ 0 ∧ r = (y0 + yoff) % 32 ∧ c = (x0 + xoff) % 64) ∨
        rowHit src y0 x0 yoff (xoff + 1) fuel r c) := by
  constructor
  · rintro ⟨j, h1, h2, h3, h4, h5⟩
    by_cases hj : j = xoff
    · subst hj
      exact Or.inl ⟨h3, h4, h5⟩
    · exact Or.inr ⟨j, by omega, by omega, h3, h4, h5⟩
  · rintro (⟨h1, h2, h3⟩ | ⟨j, h1, h2, h3, h4, h5⟩)
    · exact ⟨xoff, Nat.le_refl _, by omega, h1, h2, h3⟩
    · exact ⟨j, by omega, by omega, h3, h4, h5⟩

theorem rowCollide_cons (src y0 x0 yoff xoff fuel : Nat) (d : Nat → Nat → Bool) :
    rowCollide src y0 x0 yoff xoff (fuel + 1) d ↔
      ((src &&& (0x80 >>> xoff) ≠ 0 ∧ d ((y0 + yoff) % 32) ((x0 + xoff) % 64) = true) ∨
        rowCollide src y0 x0 yoff (xoff + 1) fuel d) := by
  constructor
  · rintro ⟨j, h1, h2, h3, h4⟩
    by_cases hj : j = xoff
    · subst hj
      exact Or.inl ⟨h3, h4⟩
    · exact Or.inr ⟨j, by omega, by omega, h3, h4⟩
  · rintro (⟨h1, h2⟩ | ⟨j, h1, h2, h3, h4⟩)
    · exact ⟨xoff, Nat.le_refl _, by omega, h1, h2⟩
    · exact ⟨j, by omega, by omega, h3, h4⟩

theorem spriteHit_zero (mem : Nat → Nat) (idx y0 x0 yoff r c : Nat) :
    ¬ spriteHit mem idx y0 x0 yoff 0 r c := by
  rintro ⟨i, h1, h2, _⟩
  omega

theorem spriteCollide_zero (mem : Nat → Nat) (idx y0 x0 yoff : Nat) (d : Nat → Nat → Bool) :
    ¬ spriteCollide mem idx y0 x0 yoff 0 d := by
  rintro ⟨i, h1, h2, _⟩
  omega

theorem spriteHit_cons (mem : Nat → Nat) (idx y0 x0 yoff fuel r c : Nat) :
    spriteHit mem idx y0 x0 yoff (fuel + 1) r c ↔
      (rowHit (mem (idx + yoff)) y0 x0 yoff 0 8 r c ∨
        spriteHit mem idx y0 x0 (yoff + 1) fuel r c) := by
  constructor
  · rintro ⟨i, h1, h2, j, hj, h3, h4, h5⟩
    by_cases hi : i = yoff
    · subst hi
      exact Or.inl ⟨j, Nat.zero_le _, by omega, h3, h4, h5⟩
    · exact Or.inr ⟨i, by omega, by omega, j, hj, h3, h4, h5⟩
  · rintro (⟨j, _, hj, h3, h4, h5⟩ | ⟨i, h1, h2, j, hj, h3, h4, h5⟩)
    · exact ⟨yoff, Nat.le_refl _, by omega, j, by omega, h3, h4, h5⟩
    · exact ⟨i, by omega, by omega, j, hj, h3, h4, h5⟩

theorem spriteCollide_cons (mem : Nat → Nat) (idx y0 x0 yoff fuel : Nat) (d : Nat → Nat → Bool) :
    spriteCollide mem idx y0 x0 yoff (fuel + 1) d ↔
      (rowCollide (mem (idx + yoff)) y0 x0 yoff 0 8 d ∨
        spriteCollide mem idx y0 x0 (yoff + 1) fuel d) := by
  constructor
  · rintro ⟨i, h1, h2, j, hj, h3, h4⟩
    by_cases hi : i = yoff
    · subst hi
      exact Or.inl ⟨j, Nat.zero_le _, by omega, h3, h4⟩
    · exact Or.inr ⟨i, by omega, by omega, j, hj, h3, h4⟩
  · rintro (⟨j, _, hj, h3, h4⟩ | ⟨i, h1, h2, j, hj, h3, h4⟩)
    · exact ⟨yoff, Nat.le_refl _, by omega, j, by omega, h3, h4⟩
    · exact ⟨i, by omega, by omega, j, hj, h3, h4⟩

/-- Characterization of the inner pixel loop: cells covered by a set bit of
the row toggle, all others are untouched, and the carry flag absorbs whether
any covered cell was already lit.  `xoff + fuel ≤ 64` keeps the processed
columns distinct modulo 64, so each cell is toggled at most once. -/
theorem drawRow_spec (src y0 x0 yoff : Nat) :
    ∀ fuel xoff st, xoff + fuel ≤ 64 →
      (∀ r c, rowHit src y0 x0 yoff xoff fuel r c →
        (drawRow src y0 x0 yoff xoff fuel st).display r c = !(st.display r c)) ∧
      (∀ r c, ¬ rowHit src y0 x0 yoff xoff fuel r c →
        (drawRow src y0 x0 yoff xoff fuel st).display r c = st.display r c) ∧
      ((drawRow src y0 x0 yoff xoff fuel st).carry = true ↔
        (st.carry = true ∨ rowCollide src y0 x0 yoff xoff fuel st.display)) := by
  intro fuel
  induction fuel with
  | zero =>
    intro xoff st _
    refine ⟨?_, ?_, ?_⟩
    · intro r c hhit
      exact absurd hhit (rowHit_zero src y0 x0 yoff xoff r c)
    · intro r c _
      rfl
    · constructor
      · exact Or.inl
      · rintro (h | h)
        · exact h
        · exact absurd h (rowCollide_zero src y0 x0 yoff xoff st.display)
  | succ fuel ih =>
    intro xoff st hb
    by_cases hbit : src &&& (0x80 >>> xoff) = 0
    · have hrec : drawRow src y0 x0 yoff xoff (fuel + 1) st =
          drawRow src y0 x0 yoff (xoff + 1) fuel st := by
        show drawRow src y0 x0 yoff (xoff + 1) fuel (drawPix src y0 x0 yoff xoff st) = _
        rw [drawPix_nobit src y0 x0 yoff xoff st hbit]
      obtain ⟨ih1, ih2, ih3⟩ := ih (xoff + 1) st (by omega)
      rw [hrec]
      refine ⟨?_, ?_, ?_⟩
      · intro r c hhit
        rw [rowHit_cons] at hhit
        rcases hhit with ⟨hb2, _⟩ | hhit
        · exact absurd hbit hb2
        · exact ih1 r c hhit
      · intro r c hhit
        refine ih2 r c (fun hh => hhit ?_)
        rw [rowHit_cons]
        exact Or.inr hh
      · rw [ih3, rowCollide_cons]
        constructor
        · rintro (h | h)
          · exact Or.inl h
          · exact Or.inr (Or.inr h)
        · rintro (h | ⟨hb2, _⟩ | h)
          · exact Or.inl h
          · exact absurd hbit hb2
          · exact Or.inr h
    · have hrec : drawRow src y0 x0 yoff xoff (fuel + 1) st =
          drawRow src y0 x0 yoff (xoff + 1) fuel (drawPix src y0 x0 yoff xoff st) := rfl
      obtain ⟨ih1, ih2, ih3⟩ := ih (xoff + 1) (drawPix src y0 x0 yoff xoff st) (by omega)
      have hdisp := drawPix_display_bit src y0 x0 yoff xoff st hbit
      have hcarry := drawPix_carry_bit src y0 x0 yoff xoff st hbit
      rw [hrec]
      refine ⟨?_, ?_, ?_⟩
      · intro r c hhit
        rw [rowHit_cons] at hhit
        rcases hhit with ⟨_, hr, hc⟩ | ⟨j, hj1, hj2, hjbit, hr, hc⟩
        · have hnot : ¬ rowHit src y0 x0 yoff (xoff + 1) fuel r c := by
            rintro ⟨j, hj1, hj2, _, _, hc2⟩
            exact (addModNe x0 64 xoff j (by omega) (by omega) (by omega)) (by rw [← hc, ← hc2])
          rw [ih2 r c hnot, hdisp r c, if_pos ⟨hr, hc⟩, hr, hc]
        · have hne : ¬ (r = (y0 + yoff) % 32 ∧ c = (x0 + xoff) % 64) := by
            rintro ⟨_, hc2⟩
            exact (addModNe x0 64 j xoff (by omega) (by omega) (by omega)) (by rw [← hc, ← hc2])
          rw [ih1 r c ⟨j, hj1, hj2, hjbit, hr, hc⟩, hdisp r c, if_neg hne]
      · intro r c hhit
        have hnot2 : ¬ rowHit src y0 x0 yoff (xoff + 1) fuel r c := by
          intro hh
          refine hhit ?_
          rw [rowHit_cons]
          exact Or.inr hh
        have hne : ¬ (r = (y0 + yoff) % 32 ∧ c = (x0 + xoff) % 64) := by
          rintro ⟨hr, hc⟩
          refine hhit ?_
          rw [rowHit_cons]
          exact Or.inl ⟨hbit, hr, hc⟩
        rw [ih2 r c hnot2, hdisp r c, if_neg hne]
      · have hcells : rowCollide src y0 x0 yoff (xoff + 1) fuel
            (drawPix src y0 x0 yoff xoff st).display ↔
            rowCollide src y0 x0 yoff (xoff + 1) fuel st.display := by
          constructor <;> rintro ⟨j, hj1, hj2, hjbit, hd⟩ <;> refine ⟨j, hj1, hj2, hjbit, ?_⟩
          · rw [hdisp ((y0 + yoff) % 32) ((x0 + j) % 64), if_neg (by
              rintro ⟨_, hc2⟩
              exact (addModNe x0 64 j xoff (by omega) (by omega) (by omega)) (by rw [← hc2]))] at hd
            exact hd
          · rw [hdisp ((y0 + yoff) % 32) ((x0 + j) % 64), if_neg (by
              rintro ⟨_, hc2⟩
              exact (addModNe x0 64 j xoff (by omega) (by omega) (by omega)) (by rw [← hc2]))]
            exact hd
        rw [ih3, hcells, rowCollide_cons, hcarry]
        have hx : ∀ b1 b2 : Bool, ((b1 || b2) = true) ↔ (b1 = true ∨ b2 = true) := by
          intro b1 b2
          cases b1 <;> cases b2 <;> simp
        rw [hx]
        constructor
        · rintro ((h | h) | h)
          · exact Or.inl h
          · exact Or.inr (Or.inl ⟨hbit, h⟩)
          · exact Or.inr (Or.inr h)
        · rintro (h | ⟨_, h⟩ | h)
          · exact Or.inl (Or.inl h)
          · exact Or.inl (Or.inr h)
          · exact Or.inr h

/-- Characterization of the whole sprite loop: with at most 32 rows (so rows
stay distinct modulo 32) and all reads in bounds, the draw succeeds, covered
cells toggle, untouched cells keep their value, and the carry flag reports
whether a covered cell was already lit. -/
theorem drawRows_spec (mem : Nat → Nat) (idx y0 x0 : Nat) :
    ∀ fuel yoff st, fuel ≤ 32 → (fuel = 0 ∨ idx + yoff + fuel ≤ 4096) →
      ∃ st', drawRows mem idx y0 x0 yoff fuel st = Except.ok st' ∧
        (∀ r c, spriteHit mem idx y0 x0 yoff fuel r c → st'.display r c = !(st.display r c)) ∧
        (∀ r c, ¬ spriteHit mem idx y0 x0 yoff fuel r c → st'.display r c = st.display r c) ∧
        (st'.carry = true ↔
          (st.carry = true ∨ spriteCollide mem idx y0 x0 yoff fuel st.display)) := by
  intro fuel
  induction fuel with
  | zero =>
    intro yoff st _ _
    refine ⟨st, rfl, ?_, ?_, ?_⟩
    · intro r c hhit
      exact absurd hhit (spriteHit_zero mem idx y0 x0 yoff r c)
    · intro r c _
      rfl
    · constructor
      · exact Or.inl
      · rintro (h | h)
        · exact h
        · exact absurd h (spriteCollide_zero mem idx y0 x0 yoff st.display)
  | succ f ih =>
    intro yoff st hf hb
    have hin : idx + yoff < 4096 := by omega
    obtain ⟨r1, r2, r3⟩ := drawRow_spec (mem (idx + yoff)) y0 x0 yoff 8 0 st (by omega)
    obtain ⟨st', hok, s1, s2, s3⟩ :=
      ih (yoff + 1) (drawRow (mem (idx + yoff)) y0 x0 yoff 0 8 st) (by omega) (by omega)
    have hrec : drawRows mem idx y0 x0 yoff (f + 1) st =
        drawRows mem idx y0 x0 (yoff + 1) f (drawRow (mem (idx + yoff)) y0 x0 yoff 0 8 st) := by
      show (if idx + yoff < 4096 then _ else _) = _
      rw [if_pos hin]
    have hlaterRow : ∀ r c, spriteHit mem idx y0 x0 (yoff + 1) f r c →
        r ≠ (y0 + yoff) % 32 := by
      rintro r c ⟨i, hi1, hi2, j, hj, hbit, hr, hc⟩
      have hd := addModNe' (y0 + yoff) (i - yoff) 32 (by omega) (by omega)
      rw [show y0 + yoff + (i - yoff) = y0 + i by omega] at hd
      rw [hr]
      exact fun hcontra => hd hcontra.symm
    refine ⟨st', by rw [hrec]; exact hok, ?_, ?_, ?_⟩
    · intro r c hhit
      rw [spriteHit_cons] at hhit
      rcases hhit with hcur | hlater
      · have hr : r = (y0 + yoff) % 32 := by
          obtain ⟨j, _, _, _, hr, _⟩ := hcur
          exact hr
        have hnot : ¬ spriteHit mem idx y0 x0 (yoff + 1) f r c :=
          fun hh => (hlaterRow r c hh) hr
        rw [s2 r c hnot, r1 r c hcur]
      · have hnotrow : ¬ rowHit (mem (idx + yoff)) y0 x0 yoff 0 8 r c := by
          rintro ⟨j, _, _, _, hr, _⟩
          exact (hlaterRow r c hlater) hr
        rw [s1 r c hlater, r2 r c hnotrow]
    · intro r c hhit
      have hnot1 : ¬ rowHit (mem (idx + yoff)) y0 x0 yoff 0 8 r c := by
        intro hh
        refine hhit ?_
        rw [spriteHit_cons]
        exact Or.inl hh
      have hnot2 : ¬ spriteHit mem idx y0 x0 (yoff + 1) f r c := by
        intro hh
        refine hhit ?_
        rw [spriteHit_cons]
        exact Or.inr hh
      rw [s2 r c hnot2, r2 r c hnot1]
    · have hcells : spriteCollide mem idx y0 x0 (yoff + 1) f
          (drawRow (mem (idx + yoff)) y0 x0 yoff 0 8 st).display ↔
          spriteCollide mem idx y0 x0 (yoff + 1) f st.display := by
        constructor <;> rintro ⟨i, hi1, hi2, j, hj, hbit, hd⟩ <;>
          refine ⟨i, hi1, hi2, j, hj, hbit, ?_⟩
        · rw [r2 ((y0 + i) % 32) ((x0 + j) % 64) (by
            rintro ⟨j2, _, _, _, hr2, _⟩
            exact (hlaterRow ((y0 + i) % 32) ((x0 + j) % 64)
              ⟨i, hi1, hi2, j, hj, hbit, rfl, rfl⟩) hr2)] at hd
          exact hd
        · rw [r2 ((y0 + i) % 32) ((x0 + j) % 64) (by
            rintro ⟨j2, _, _, _, hr2, _⟩
            exact (hlaterRow ((y0 + i) % 32) ((x0 + j) % 64)
              ⟨i, hi1, hi2, j, hj, hbit, rfl, rfl⟩) hr2)]
          exact hd
      rw [s3, r3, hcells, spriteCollide_cons]
      constructor
      · rintro ((h | h) | h)
        · exact Or.inl h
        · exact Or.inr (Or.inl h)
        · exact Or.inr (Or.inr h)
      · rintro (h | h | h)
        · exact Or.inl (Or.inl h)
        · exact Or.inl (Or.inr h)
        · exact Or.inr h

/-- Full behaviour of `draw_sprite` for at most 32 rows with in-bounds reads:
only the display and `VF` change, covered cells toggle, others are untouched,
and `VF` is 1 exactly when a covered cell was already lit (else 0). -/
theorem draw_sprite_spec (s : Chip8) (xr yr n : Nat) (hn : n ≤ 32)
    (hb : n = 0 ∨ s.index + n ≤ 4096) :
    ∃ t, draw_sprite s xr yr n = Except.ok t ∧
      t.memory = s.memory ∧ t.index = s.index ∧ t.pc = s.pc ∧
      (∀ i, i ≠ 15 → t.registers i = s.registers i) ∧
      (∀ r c, spriteHit s.memory s.index (s.registers yr) (s.registers xr) 0 n r c →
        t.display r c = !(s.display r c)) ∧
      (∀ r c, ¬ spriteHit s.memory s.index (s.registers yr) (s.registers xr) 0 n r c →
        t.display r c = s.display r c) ∧
      (t.registers 15 = 1 ↔
        spriteCollide s.memory s.index (s.registers yr) (s.registers xr) 0 n s.display) ∧
      (t.registers 15 = 0 ∨ t.registers 15 = 1) := by
  obtain ⟨st', hok, p1, p2, p3⟩ := drawRows_spec s.memory s.index (s.registers yr)
    (s.registers xr) n 0 { display := s.display, carry := false } hn (by omega)
  have p3' : st'.carry = true ↔
      spriteCollide s.memory s.index (s.registers yr) (s.registers xr) 0 n s.display := by
    rw [p3]
    simp
  refine ⟨{ s with display := st'.display, registers := updf s.registers 15 (if st'.carry then 1 else 0) }, ?_, rfl, rfl, rfl, ?_, ?_, ?_, ?_, ?_⟩
  · simp only [draw_sprite]
    rw [hok]
  · intro i hi
    exact updf_other _ _ _ _ hi
  · intro r c hh
    exact p1 r c hh
  · intro r c hh
    exact p2 r c hh
  · show updf s.registers 15 (if st'.carry then 1 else 0) 15 = 1 ↔ _
    rw [updf_same]
    cases hc : st'.carry
    · rw [if_neg (by simp)]
      constructor
      · intro h0
        exact absurd h0 (by omega)
      · intro hcol
        exact absurd (p3'.mpr hcol) (by simp [hc])
    · rw [if_pos rfl]
      constructor
      · intro _
        exact p3'.mp hc
      · intro _
        rfl
  · show updf s.registers 15 (if st'.carry then 1 else 0) 15 = 0 ∨
      updf s.registers 15 (if st'.carry then 1 else 0) 15 = 1
    rw [updf_same]
    cases st'.carry
    · left
      rfl
    · right
      rfl

/-! ## Claim C4: Dxyn draw semantics -/

/-- C4.  Executing a `Dxyn` opcode whose `n` sprite rows all lie inside memory
(`index + n ≤ 4096`) reads `memory[index..index+n-1]`, treats bits
most-significant first, toggles exactly the cells `((Vy + row) % 32,
(Vx + col) % 64)` covered by set bits (all of them — no early exit), leaves
every other cell unchanged, and ends with `VF = 1` iff some set bit covered an
already-lit cell, else `VF = 0`. -/
theorem claim4_draw_semantics (s : Chip8) (op rnd : Nat) (hop : op &&& 0xF000 = 0xD000)
    (hb : s.index + (op &&& 0x000F) ≤ 4096) : DxynSpec s op rnd := by
  obtain ⟨t, hok, hmem, hidx, hpc, hreg, hflip, hsame, hcol, hvals⟩ :=
    draw_sprite_spec s ((op &&& 0x0F00) >>> 8) ((op &&& 0x00F0) >>> 4) (op &&& 0x000F)
      (Nat.le_trans Nat.and_le_right (by norm_num)) (Or.inr hb)
  refine ⟨t, ?_, hflip, hsame, hcol, hvals⟩
  rw [execute_draw s op rnd hop]
  exact hok

/-- Witness for C4: drawing the five font rows of glyph 0 (`D005`, `V0 = 0`,
`index = 0`) on a fresh machine. -/
theorem claim4_witness : DxynSpec Chip8.new 0xD005 0 :=
  claim4_draw_semantics Chip8.new 0xD005 0 (by decide) (by decide)

/-! ## Claim C9: drawing the same sprite twice -/

/-- Counterexample to C9 as stated.  On `c9_s` the single display cell (0, 0)
is lit before the first draw; the sprite byte `0x80` has a set bit, yet the
second identical draw ends with `VF = 0`, not 1: its only covered cell was
turned dark by the first draw, so no collision happens.  (The claim's
"VF = 1 if the sprite has at least one set bit" is wrong for cells that were
lit before the first draw.) -/
theorem claim9_counterexample :
    execute c9_s 0xD011 0 = Except.ok c9_t ∧
    execute c9_t 0xD011 0 = Except.ok c9_u ∧
    c9_s.memory 100 &&& 0x80 ≠ 0 ∧
    c9_t.registers 15 = 1 ∧
    c9_u.registers 15 = 0 ∧
    c9_u.registers 15 ≠ 1 ∧
    c9_u.display 0 0 = c9_s.display 0 0 := by
  refine ⟨rfl, rfl, by decide, rfl, rfl, by decide, rfl⟩

/-- C9, amended: drawing the same `n ≤ 15`-byte sprite twice (identical
registers read — `x, y ≠ 0xF`, since the draw rewrites `VF` — index and
memory, reads in bounds) restores the framebuffer, and the second draw sets
`VF = 1` iff some set sprite bit covers a cell that was dark *before the
first draw* — not merely iff the sprite has a set bit. -/
theorem claim9_double_draw (s : Chip8) (xr yr n : Nat) (hxr : xr ≠ 15) (hyr : yr ≠ 15)
    (hn : n ≤ 15) (hb : s.index + n ≤ 4096) : DoubleDrawSpec s xr yr n := by
  obtain ⟨t, hok1, hmem, hidx, hpc, hreg, hflip1, hsame1, hcol1, _⟩ :=
    draw_sprite_spec s xr yr n (by omega) (Or.inr hb)
  have hrx : t.registers xr = s.registers xr := hreg xr hxr
  have hry : t.registers yr = s.registers yr := hreg yr hyr
  obtain ⟨u, hok2, _, _, _, _, hflip2, hsame2, hcol2, _⟩ :=
    draw_sprite_spec t xr yr n (by omega) (Or.inr (by rw [hidx]; exact hb))
  have hHitEq : ∀ r c, spriteHit t.memory t.index (t.registers yr) (t.registers xr) 0 n r c ↔
      spriteHit s.memory s.index (s.registers yr) (s.registers xr) 0 n r c := by
    intro r c
    rw [hmem, hidx, hrx, hry]
  refine ⟨t, u, hok1, hok2, ?_, ?_⟩
  · intro r c
    by_cases hh : spriteHit s.memory s.index (s.registers yr) (s.registers xr) 0 n r c
    · rw [hflip2 r c ((hHitEq r c).mpr hh), hflip1 r c hh, Bool.not_not]
    · rw [hsame2 r c (fun hcon => hh ((hHitEq r c).mp hcon)), hsame1 r c hh]
  · rw [hcol2]
    constructor
    · rintro ⟨i, hi1, hi2, j, hj, hbit, hd⟩
      rw [hmem, hidx] at hbit
      rw [hrx, hry] at hd
      have hcellhit : spriteHit s.memory s.index (s.registers yr) (s.registers xr) 0 n
          ((s.registers yr + i) % 32) ((s.registers xr + j) % 64) :=
        ⟨i, by omega, by omega, j, hj, hbit, rfl, rfl⟩
      rw [hflip1 _ _ hcellhit] at hd
      cases hval : s.display ((s.registers yr + i) % 32) ((s.registers xr + j) % 64) with
      | false => exact ⟨i, by omega, j, hj, hbit, hval⟩
      | true =>
        rw [hval] at hd
        exact absurd hd (by decide)
    · rintro ⟨i, hin, j, hj, hbit, hdark⟩
      have hcellhit : spriteHit s.memory s.index (s.registers yr) (s.registers xr) 0 n
          ((s.registers yr + i) % 32) ((s.registers xr + j) % 64) :=
        ⟨i, by omega, by omega, j, hj, hbit, rfl, rfl⟩
      refine ⟨i, by omega, by omega, j, hj, ?_, ?_⟩
      · rw [hmem, hidx]
        exact hbit
      · rw [hrx, hry, hflip1 _ _ hcellhit, hdark]
        rfl

/-- Witness for the amended C9: double-drawing glyph 0 (a sprite with set
bits) on a fresh machine's all-dark screen. -/
theorem claim9_witness : DoubleDrawSpec Chip8.new 0 1 5 :=
  claim9_double_draw Chip8.new 0 1 5 (by decide) (by decide) (by decide) (by decide)
